import Mathlib

/-!
# origin-web-console: metrics panel and overview service group

A shallow embedding of `app/scripts/directives/metrics.js` (the `metrics`
directive) and `app/scripts/directives/overview/serviceGroup.js` (the
`overviewServiceGroup` directive), followed by theorems about the embedded
functions.

Conventions of the embedding:

* JavaScript numbers are exact rationals (`ℚ`); `NaN`, `null` and `undefined`
  are separate constructors of `JNum`.  Timestamps are integers (milliseconds).
* A property that may be absent (`delete dataset.data`, an unbound `pod`) is an
  `Option`; `none` is JavaScript's `undefined`.
* Closure variables of the `link` function (`compact`, `destroyed`, the chart
  registries) live in the same record as the scope fields.
* A function that can raise a `TypeError` after it has written to the scope
  returns the state reached at the throw together with the error; `getConfig`,
  which writes nothing, returns an `Except`.
* Functions defined outside the two directives (`usageValueFilter`,
  `RoutesService.getPreferredDisplayRoute`, the metrics source) are parameters.
-/

namespace Metrics

/-! ## Numbers -/

/-- A JavaScript value in a numeric position: a sample value, a limit, a usage. -/
inductive JNum where
  | undefined
  | null
  | nan
  | num (q : ℚ)
  deriving DecidableEq, Repr

namespace JNum

/-- ECMAScript `ToNumber`: `undefined` is `NaN`, `null` is `0`. -/
def toNumber : JNum → JNum
  | undefined => nan
  | null => num 0
  | nan => nan
  | num q => num q

/-- ECMAScript `ToBoolean`: only a non-zero number is truthy. -/
def truthy : JNum → Bool
  | num q => decide (q ≠ 0)
  | _ => false

/-- Global `isNaN(v)`: `ToNumber(v)` is `NaN`. -/
def isNaN (v : JNum) : Bool :=
  match v.toNumber with
  | nan => true
  | _ => false

/-- Apply an exact unary operation after `ToNumber`; `NaN` propagates. -/
def map (f : ℚ → ℚ) (v : JNum) : JNum :=
  match v.toNumber with
  | num q => num (f q)
  | _ => nan

/-- Apply an exact binary operation after `ToNumber`; `NaN` propagates. -/
def map₂ (f : ℚ → ℚ → ℚ) (a b : JNum) : JNum :=
  match a.toNumber, b.toNumber with
  | num x, num y => num (f x y)
  | _, _ => nan

/-- JavaScript `a + b` on numeric operands. -/
def add (a b : JNum) : JNum := map₂ (· + ·) a b

/-- JavaScript `a - b`. -/
def sub (a b : JNum) : JNum := map₂ (· - ·) a b

/-- `Math.max(a, b)`. -/
def max (a b : JNum) : JNum := map₂ (fun x y => if x ≤ y then y else x) a b

/-- `Math.round(x)`: the nearest integer, halves rounded towards `+∞`. -/
def mathRound (q : ℚ) : ℚ := (Rat.floor (q + 1 / 2) : ℤ)

/-- Rounding to `precision` decimals: `Math.round(x * 10^p) / 10^p`,
which is what both `_.round(x, p)` and `d3.round(x, p)` compute. -/
def roundTo (precision : ℕ) (q : ℚ) : ℚ :=
  if precision = 0 then mathRound q
  else mathRound (q * (10 : ℚ) ^ precision) / (10 : ℚ) ^ precision

/-- Lodash `_.round(number, precision)`; a call without `precision` passes `0`. -/
def round (v : JNum) (precision : ℕ) : JNum := map (roundTo precision) v

end JNum

/-- `d3.round(x, n)`; a call without `n` passes `0`.  The rounding is that of
the exact rational, not of the nearest double. -/
def d3round (v : JNum) (n : ℕ) : JNum := JNum.map (JNum.roundTo n) v

/-- Function `bytesToMiB` of the directive. -/
def bytesToMiB (value : JNum) : JNum :=
  if !value.truthy then value
  else JNum.round (JNum.map (· / (1024 * 1024)) value) 0

/-- Function `bytesToKiB` of the directive: one decimal place. -/
def bytesToKiB (value : JNum) : JNum :=
  if !value.truthy then value
  else JNum.round (JNum.map (· / 1024) value) 1

/-! ## Data model -/

/-- One bucket of a metrics response: `{start, end, value}`. -/
structure Sample where
  start : ℤ
  end_ : ℤ
  value : JNum
  deriving DecidableEq, Repr

/-- One entry of `metric.datasets`. -/
structure Dataset where
  id : String
  label : Option String := none
  data : Option (List Sample) := some []
  total : JNum := .undefined
  used : JNum := .undefined
  available : JNum := .undefined
  deriving DecidableEq, Repr

/-- A resolved metrics response: `{metricID, data: [...]}`. -/
structure Response where
  metricID : String
  data : List Sample
  deriving DecidableEq, Repr

/-! ## Lodash helpers -/

/-- Lodash `_.initial`: all but the last element. -/
def initial {α : Type} (l : List α) : List α := l.dropLast

/-- Lodash `_.last`: the last element, `undefined` on an empty array. -/
def last {α : Type} (l : List α) : Option α := l.getLast?

/-- Lodash `_.takeRightWhile`: the longest suffix all of whose elements
satisfy the predicate. -/
def takeRightWhile {α : Type} (p : α → Bool) (l : List α) : List α :=
  (l.reverse.takeWhile p).reverse

/-! ## `updateData` -/

/-- Function `updateData(start, dataset, response)` without its write to
`scope.noData`, which `applyResponses` does at the call. -/
def updateData (start : ℤ) (dataset : Dataset) (response : Response) : Dataset :=
  let newData := initial response.data
  match dataset.data with
  | none => { dataset with data := some newData }
  | some old =>
    { dataset with
      data := some (takeRightWhile (fun point => decide (point.start ≥ start)) old ++ newData) }

/-- The samples `updateData` keeps from the data stored before: the result of
its `takeRightWhile`, and nothing when no data was stored. -/
def retained (start : ℤ) (dataset : Dataset) : List Sample :=
  match dataset.data with
  | none => []
  | some old => takeRightWhile (fun point => decide (point.start ≥ start)) old

/-! ## Scope and closure state -/

/-- The three functions used as `metric.convert`. -/
inductive Convert where
  | bytesToMiB
  | round
  | bytesToKiB
  deriving DecidableEq, Repr

/-- Call `metric.convert(value)`. -/
def Convert.apply : Convert → JNum → JNum
  | .bytesToMiB, v => Metrics.bytesToMiB v
  | .round, v => JNum.round v 0
  | .bytesToKiB, v => Metrics.bytesToKiB v

/-- One entry of `scope.metrics`. -/
structure Metric where
  label : String
  units : String
  chartPrefix : String
  chartType : Option String := none
  convert : Option Convert := none
  containerMetric : Bool := false
  datasets : List Dataset
  totalUsed : JNum := .undefined
  deriving DecidableEq, Repr

/-- A pod or deployment as far as the directive reads it: `metadata.namespace`
and `metadata.name`. -/
structure Resource where
  namespace_ : String
  name : String
  deriving DecidableEq, Repr

/-- A container of the pod: its name and the two limits that
`$parse('resources.limits.memory')` and `$parse('resources.limits.cpu')` read. -/
structure Container where
  name : String
  memoryLimit : Option String := none
  cpuLimit : Option String := none
  deriving DecidableEq, Repr

/-- One entry of `scope.options.rangeOptions`; `value` is in minutes. -/
structure TimeRange where
  label : String
  value : ℕ
  deriving DecidableEq, Repr

/-- The five relative time options. -/
def rangeOptions : List TimeRange :=
  [⟨"Last hour", 60⟩, ⟨"Last 4 hours", 4 * 60⟩, ⟨"Last day", 24 * 60⟩,
   ⟨"Last 3 days", 3 * 24 * 60⟩, ⟨"Last week", 7 * 24 * 60⟩]

/-- Object `scope.options`. -/
structure Options where
  rangeOptions : List TimeRange := Metrics.rangeOptions
  timeRange : TimeRange := ⟨"Last hour", 60⟩
  selectedContainer : Option Container := none
  deriving DecidableEq, Repr

/-- A JavaScript value of unknown shape, such as the reason of a rejected
promise.  Objects list their own enumerable properties in insertion order. -/
inductive JSVal where
  | undefined
  | null
  | bool (b : Bool)
  | num (n : ℤ)
  | str (s : String)
  | arr (items : List JSVal)
  | obj (fields : List (String × JSVal))

/-- Object `scope.metricsError`. -/
structure MetricsError where
  status : JSVal
  details : JSVal

/-- The directive's scope together with the closure variables of `link`. -/
structure Panel where
  pod : Option Resource := none
  deployment : Option Resource := none
  compact : Bool := false
  options : Options := {}
  metrics : List Metric := []
  metricsError : Option MetricsError := none
  loaded : Bool := false
  noData : Bool := true
  destroyed : Bool := false
  donutByMetric : List String := []
  sparklineByMetric : List String := []

/-- An error raised by the JavaScript runtime. -/
inductive JSError where
  | typeError (message : String)
  deriving DecidableEq, Repr

/-- The `memory` entry pushed onto `scope.metrics`. -/
def memoryMetric : Metric :=
  { label := "Memory", units := "MiB", chartPrefix := "memory-",
    convert := some .bytesToMiB, containerMetric := true,
    datasets := [{ id := "memory/usage", label := some "Memory" }] }

/-- The `cpu` entry pushed onto `scope.metrics`. -/
def cpuMetric : Metric :=
  { label := "CPU", units := "millicores", chartPrefix := "cpu-",
    convert := some .round, containerMetric := true,
    datasets := [{ id := "cpu/usage", label := some "CPU" }] }

/-- The `network` entry pushed onto `scope.metrics`. -/
def networkMetric : Metric :=
  { label := "Network", units := "KiB/s", chartPrefix := "network-",
    chartType := some "line", convert := some .bytesToKiB,
    datasets := [{ id := "network/tx", label := some "Sent" },
                 { id := "network/rx", label := some "Received" }] }

/-- The state `link(scope)` builds before the first watch fires. -/
def link (pod deployment : Option Resource) (profile : Option String)
    (includedMetrics : Option (List String)) : Panel :=
  let included := includedMetrics.getD ["cpu", "memory", "network"]
  { pod := pod, deployment := deployment,
    compact := decide (profile = some "compact"),
    metrics :=
      (if "memory" ∈ included then [memoryMetric] else []) ++
      (if "cpu" ∈ included then [cpuMetric] else []) ++
      (if "network" ∈ included then [networkMetric] else []) }

/-! ## Limits -/

/-- A limit string read off the container is truthy when present and non-empty. -/
def limitTruthy : Option String → Bool
  | some s => decide (s ≠ "")
  | none => false

/-- Function `getLimit(metricID)`.  The filter `usageValueFilter`, which turns a
quantity string into bytes or cores, is defined outside the directive and is a
parameter here.  A missing selected container reads as a container without
limits, as `$parse` yields `undefined` on `undefined`. -/
def getLimit (usageValueFilter : String → JNum) (p : Panel) (metricID : String) : JNum :=
  match p.pod with
  | none => .null
  | some _ =>
    let container := p.options.selectedContainer
    if metricID = "memory/usage" then
      let memLimit := container.bind (·.memoryLimit)
      if limitTruthy memLimit then bytesToMiB (usageValueFilter (memLimit.getD ""))
      else .null
    else if metricID = "cpu/usage" then
      let cpuLimit := container.bind (·.cpuLimit)
      if limitTruthy cpuLimit then
        JNum.round (JNum.map (· * 1000) (usageValueFilter (cpuLimit.getD ""))) 0
      else .null
    else .null

/-! ## Chart projection -/

/-- One cell of a c3 column: a header string, a timestamp or a value. -/
inductive Cell where
  | str (s : String)
  | time (t : ℤ)
  | val (v : JNum)
  deriving DecidableEq, Repr

/-- The `donutData` object; its `type` is `'donut'` and its colors are fixed. -/
structure DonutData where
  columns : List (List Cell)
  deriving DecidableEq, Repr

/-- The `sparklineData` object.  A column is absent when `dates` was never
assigned, which happens for a metric without datasets. -/
structure SparklineData where
  type : String
  x : String
  columns : List (Option (List Cell))
  deriving DecidableEq, Repr

/-- What `updateChart` asks of c3.  Chart creation is deferred with `$timeout`,
so the registries are written later, by `chartCreated`. -/
inductive ChartEffect where
  | generateDonutLater (metricID : String) (data : DonutData)
  | loadDonut (metricID : String) (data : DonutData)
  | generateSparklineLater (chartId : String) (data : SparklineData)
  | loadSparkline (chartId : String) (data : SparklineData)
  deriving DecidableEq, Repr

/-- The `$timeout` callback of a deferred chart creation.  The `$destroy`
listener sets both registries to `null` together with `destroyed`; the sparkline
callback checks `destroyed`, the donut callback does not and, once the panel is
destroyed, raises a `TypeError` on the `null` registry. -/
def chartCreated (p : Panel) : ChartEffect → Panel × Option JSError
  | .generateDonutLater metricID _ =>
    if p.destroyed then (p, some (.typeError "Cannot set property of null"))
    else ({ p with donutByMetric := metricID :: p.donutByMetric }, none)
  | .generateSparklineLater chartId _ =>
    if p.destroyed then (p, none)
    else ({ p with sparklineByMetric := chartId :: p.sparklineByMetric }, none)
  | _ => (p, none)

/-- Assignment `values[key] = column` on an object kept in insertion order. -/
def setColumn (values : List (String × List Cell)) (key : String) (column : List Cell) :
    List (String × List Cell) :=
  match values with
  | [] => [(key, column)]
  | (k, c) :: rest =>
    if k = key then (k, column) :: rest else (k, c) :: setColumn rest key column

/-- The local variables of `updateChart` that the dataset loop writes. -/
structure ChartAcc where
  totalUsed : JNum
  dates : Option (List Cell) := none
  values : List (String × List Cell) := []
  effects : List ChartEffect := []
  deriving DecidableEq, Repr

/-- The cell pushed onto `values[metricID]` for one point. -/
def pointCell (metric : Metric) (metricID : String) (point : Sample) : Cell :=
  match point.value with
  | .undefined => .val .undefined
  | .null => .val .null
  | v =>
    let value := match metric.convert with
      | some c => c.apply v
      | none => v
    if metricID = "memory/usage" ∨ metricID = "network/rx" ∨ metricID = "network/tx" then
      .val (d3round value 2)
    else .val (d3round value 0)

/-- The value `updateChart` assigns to `dataset.used`, given the last stored
point: `NaN` becomes `0`, then `metric.convert` is applied. -/
def usedOf (metric : Metric) (lastPoint : Sample) : JNum :=
  let lastValue := if lastPoint.value.isNaN then JNum.num 0 else lastPoint.value
  match metric.convert with
  | some c => c.apply lastValue
  | none => lastValue

/-- The state after one pass of the dataset loop of `updateChart`. -/
structure DatasetStep where
  dataset : Dataset
  acc : ChartAcc
  thrown : Option JSError := none
  deriving DecidableEq, Repr

/-- The body of `angular.forEach(metric.datasets, ...)` in `updateChart`. -/
def updateChartDataset (usageValueFilter : String → JNum) (p : Panel) (metric : Metric)
    (acc : ChartAcc) (dataset : Dataset) : DatasetStep :=
  let metricID := dataset.id
  let metricData := dataset.data.getD []
  let header := match dataset.label with
    | some l => if l = "" then metricID else l
    | none => metricID
  let acc := { acc with dates := some [.str "dates"] }
  let dataset := { dataset with total := getLimit usageValueFilter p metricID }
  match last metricData with
  | none =>
    { dataset := dataset,
      acc := { acc with values := setColumn acc.values metricID [.str header] },
      thrown := some (.typeError "Cannot read property 'value' of undefined") }
  | some lastPoint =>
    let dataset := { dataset with used := usedOf metric lastPoint }
    let dataset :=
      if dataset.total.truthy then
        { dataset with available := JNum.max (JNum.sub dataset.total dataset.used) (.num 0) }
      else dataset
    let donutData : DonutData :=
      { columns := [[.str "Used", .val dataset.used], [.str "Available", .val dataset.available]] }
    let donut :=
      if dataset.total.truthy then
        if metricID ∈ p.donutByMetric then [ChartEffect.loadDonut metricID donutData]
        else [ChartEffect.generateDonutLater metricID donutData]
      else []
    { dataset := dataset,
      acc :=
        { totalUsed := JNum.add acc.totalUsed dataset.used,
          dates := some (.str "dates" :: metricData.map (fun point => Cell.time point.start)),
          values := setColumn acc.values metricID
            (.str header :: metricData.map (pointCell metric metricID)),
          effects := acc.effects ++ donut } }

/-- The donut payload a call to c3 carries, with the id of its series; `none`
for a sparkline call. -/
def ChartEffect.donut? : ChartEffect → Option (String × DonutData)
  | .generateDonutLater metricID data => some (metricID, data)
  | .loadDonut metricID data => some (metricID, data)
  | _ => none

/-- The dataset loop of `updateChart`; it stops at the first throw and leaves
the remaining datasets untouched. -/
def updateChartLoop (usageValueFilter : String → JNum) (p : Panel) (metric : Metric) :
    ChartAcc → List Dataset → List Dataset × ChartAcc × Option JSError
  | acc, [] => ([], acc, none)
  | acc, dataset :: rest =>
    let step := updateChartDataset usageValueFilter p metric acc dataset
    match step.thrown with
    | some e => (step.dataset :: rest, step.acc, some e)
    | none =>
      let (rest', acc', thrown) := updateChartLoop usageValueFilter p metric step.acc rest
      (step.dataset :: rest', acc', thrown)

/-- The outcome of `updateChart(metric)`: the metric as it was left, the calls
made to c3, and the error raised, if any. -/
structure ChartResult where
  metric : Metric
  effects : List ChartEffect := []
  thrown : Option JSError := none
  deriving DecidableEq, Repr

/-- Function `updateChart(metric)`. -/
def updateChart (usageValueFilter : String → JNum) (p : Panel) (metric : Metric) :
    ChartResult :=
  let missingData := metric.datasets.any (fun dataset => dataset.data.isNone)
  if missingData then { metric := metric }
  else
    let (datasets, acc, thrown) :=
      updateChartLoop usageValueFilter p metric { totalUsed := .num 0 } metric.datasets
    match thrown with
    | some e =>
      { metric := { metric with datasets := datasets, totalUsed := acc.totalUsed },
        effects := acc.effects, thrown := some e }
    | none =>
      let sparklineData : SparklineData :=
        { type := metric.chartType.getD "area", x := "dates",
          columns := acc.dates :: acc.values.map (fun kv => some kv.2) }
      let chartId := metric.chartPrefix ++ "sparkline"
      let sparkline :=
        if chartId ∈ p.sparklineByMetric then ChartEffect.loadSparkline chartId sparklineData
        else ChartEffect.generateSparklineLater chartId sparklineData
      { metric := { metric with datasets := datasets, totalUsed := JNum.round acc.totalUsed 1 },
        effects := acc.effects ++ [sparkline] }

/-! ## Requests -/

/-- Function `getTimeRangeMillis()`. -/
def getTimeRangeMillis (p : Panel) : ℕ :=
  if p.compact then 15 * 60 * 1000
  else p.options.timeRange.value * 60 * 1000

/-- Function `getBucketDuration()`. -/
def getBucketDuration (p : Panel) : String :=
  if p.compact then "60s"
  else toString (getTimeRangeMillis p / 60) ++ "ms"

/-- The value of `containerName` in a pod request: a string, or `false` when
the compact profile short-circuits `!compact && selectedContainer.name`. -/
inductive ContainerName where
  | jsFalse
  | name (s : String)
  deriving DecidableEq, Repr

/-- The object passed to `MetricsService.get`. -/
structure Config where
  metric : String
  bucketDuration : String
  start : ℤ
  namespace_ : String
  pod : Option Resource := none
  deployment : Option Resource := none
  containerName : Option ContainerName := none
  stacked : Option Bool := none
  deriving DecidableEq, Repr

/-- The `start` that `getConfig` puts into the request. -/
def configStart (dataset : Dataset) (start : ℤ) : ℤ :=
  match dataset.data with
  | some data =>
    match last data with
    | some lastPoint => lastPoint.end_
    | none => start
  | none => start

/-- Function `getConfig(metric, dataset, start)`; `ok none` is `null`.  Reading
`selectedContainer.name` without a selected container raises a `TypeError`. -/
def getConfig (p : Panel) (metric : Metric) (dataset : Dataset) (start : ℤ) :
    Except JSError (Option Config) :=
  let metricID := dataset.id
  let bucketDuration := getBucketDuration p
  let start := configStart dataset start
  match p.pod with
  | some pod =>
    let containerName : Except JSError ContainerName :=
      if metric.containerMetric then
        if p.compact then .ok .jsFalse
        else match p.options.selectedContainer with
          | some container => .ok (.name container.name)
          | none => .error (.typeError "Cannot read property 'name' of undefined")
      else .ok (.name "pod")
    match containerName with
    | .error e => .error e
    | .ok name =>
      .ok (some { metric := metricID, bucketDuration := bucketDuration, start := start,
                  namespace_ := pod.namespace_, pod := some pod,
                  containerName := some name, stacked := some true })
  | none =>
    match p.deployment with
    | some deployment =>
      .ok (some { metric := metricID, bucketDuration := bucketDuration, start := start,
                  namespace_ := deployment.namespace_, deployment := some deployment })
    | none => .ok none

/-- Function `canUpdate()`, as the truthiness of what it returns. -/
def canUpdate (p : Panel) : Bool :=
  if p.metricsError.isSome then false
  else if p.deployment.isSome then true
  else p.pod.isSome && (p.compact || p.options.selectedContainer.isSome)

/-! ## Untyped values: the failure payload -/

namespace JSVal

/-- ECMAScript `ToBoolean`. -/
def truthy : JSVal → Bool
  | undefined => false
  | null => false
  | bool b => b
  | num n => decide (n ≠ 0)
  | str s => decide (s ≠ "")
  | arr _ => true
  | obj _ => true

/-- The value is `null` or `undefined` (`v == null`). -/
def isNullish : JSVal → Bool
  | undefined => true
  | null => true
  | _ => false

/-- The value is `undefined` (`v === undefined`). -/
def isUndefined : JSVal → Bool
  | undefined => true
  | _ => false

/-- Look a key up among the properties of an object literal. -/
def lookup (key : String) : List (String × JSVal) → JSVal
  | [] => undefined
  | (k, v) :: rest => if k = key then v else lookup key rest

/-- Property read `v[key]` for a key that is not an array index, not `length`
and not inherited from a prototype: only an object has such a property. -/
def getProp (v : JSVal) (key : String) : JSVal :=
  match v with
  | obj fields => lookup key fields
  | _ => undefined

/-- The object literal has a property of that name. -/
def hasKey (key : String) (fields : List (String × JSVal)) : Bool :=
  fields.any (fun field => decide (field.1 = key))

/-- Test `key in v`, for the same keys as `getProp`. -/
def hasProp (v : JSVal) (key : String) : Bool :=
  match v with
  | obj fields => hasKey key fields
  | _ => false

/-- Lodash `baseGet`: follow the path while the object is not nullish. -/
def baseGet : JSVal → List String → JSVal
  | v, [] => v
  | v, key :: rest => if v.isNullish then undefined else baseGet (v.getProp key) rest

/-- Lodash `_.get(object, path, defaultValue)` for a non-empty path, given as
the list of its keys.  The whole path string is tried as one key first, as
`baseGet` of lodash 3 does with its `pathKey`. -/
def get (object : JSVal) (path : List String) (defaultValue : JSVal) : JSVal :=
  let pathKey := ".".intercalate path
  let result :=
    if object.isNullish then undefined
    else if object.hasProp pathKey then object.getProp pathKey
    else baseGet object path
  if result.isUndefined then defaultValue else result

/-- JavaScript `a || b`. -/
def or (a b : JSVal) : JSVal := if a.truthy then a else b

mutual
/-- ECMAScript `ToString`, as string concatenation applies it. -/
def toStr : JSVal → String
  | undefined => "undefined"
  | null => "null"
  | bool b => if b then "true" else "false"
  | num n => toString n
  | str s => s
  | arr items => joinStr items
  | obj _ => "[object Object]"
termination_by structural v => v
/-- `Array.prototype.join(",")`: nullish elements print as nothing. -/
def joinStr : List JSVal → String
  | [] => ""
  | x :: xs =>
    (match x with
      | undefined => ""
      | null => ""
      | v => toStr v) ++
    (match xs with
      | [] => ""
      | _ :: _ => ",") ++ joinStr xs
termination_by structural l => l
end

/-- The length under which `angular.forEach` walks an object as an array:
`isArrayLike` holds of an object whose `length` is `0`, or a positive number
`n` with the key `n - 1` present. -/
def arrayLikeLength (fields : List (String × JSVal)) : Option ℕ :=
  match lookup "length" fields with
  | num n =>
    if n = 0 then some 0
    else if 0 < n ∧ hasKey (toString (n - 1)) fields then some n.toNat
    else none
  | _ => none

/-- The values `angular.forEach(v, iterator)` passes to the iterator, in order:
the elements of an array, the characters of a string, the property values of an
object, or the values at the index keys present when the object is array-like;
nothing for any other value. -/
def forEachValues : JSVal → List JSVal
  | arr items => items
  | str s => s.toList.map (fun c => str (String.singleton c))
  | obj fields =>
    match arrayLikeLength fields with
    | some n =>
      (List.range n).filterMap (fun index =>
        if hasKey (toString index) fields then some (lookup (toString index) fields) else none)
    | none => fields.map (·.2)
  | _ => []

end JSVal

/-- The object the failure callback builds from one `response`. -/
def errorOf (response : JSVal) : MetricsError :=
  { status := response.get ["status"] (.num 0),
    details :=
      ((response.get ["data", "errorMsg"] .undefined).or
        (response.get ["statusText"] .undefined)).or
        (.str ("Status code " ++ (response.get ["status"] (.num 0)).toStr)) }

/-- The failure callback of `$q.all(promises).then(...)`.  Its argument is the
reason the joined promise was rejected with. -/
def onFailure (p : Panel) (responses : JSVal) : Panel :=
  if p.destroyed then p
  else responses.forEachValues.foldl
    (fun p response => { p with metricsError := some (errorOf response) }) p

/-! ## The update cycle -/

/-- The requests of one metric, joined by `$q.all`; `index` is the position of
the metric in `scope.metrics`. -/
structure FetchGroup where
  index : ℕ
  requests : List Config
  deriving DecidableEq, Repr

/-- What a call of `update()` did before returning: the groups of requests it
joined, the requests sent for a metric whose loop was cut short by a throw, and
that error. -/
structure UpdateResult where
  joined : List FetchGroup := []
  orphaned : List Config := []
  thrown : Option JSError := none
  deriving DecidableEq, Repr

/-- The inner `angular.forEach(metric.datasets, ...)` of `update`: the requests
pushed onto `promises`, and the error that cut the loop short, if any. -/
def datasetRequests (p : Panel) (metric : Metric) (start : ℤ) :
    List Dataset → List Config × Option JSError
  | [] => ([], none)
  | dataset :: rest =>
    match getConfig p metric dataset start with
    | .error e => ([], some e)
    | .ok none => datasetRequests p metric start rest
    | .ok (some config) =>
      let (configs, thrown) := datasetRequests p metric start rest
      (config :: configs, thrown)

/-- The outer `angular.forEach(scope.metrics, ...)` of `update`, from the metric
at position `index` on. -/
def metricRequests (p : Panel) (start : ℤ) : ℕ → List Metric → UpdateResult
  | _, [] => {}
  | index, metric :: rest =>
    match datasetRequests p metric start metric.datasets with
    | (configs, some e) => { orphaned := configs, thrown := some e }
    | (configs, none) =>
      let later := metricRequests p start (index + 1) rest
      { later with joined := { index := index, requests := configs } :: later.joined }

/-- The window start of a cycle: `Date.now() - getTimeRangeMillis()`. -/
def windowStart (p : Panel) (now : ℤ) : ℤ := now - getTimeRangeMillis p

/-- Function `update()` up to its return; `now` is the value of `Date.now()`.
It writes nothing to the scope: all writes happen in the promise callbacks. -/
def update (p : Panel) (now : ℤ) : UpdateResult :=
  if !canUpdate p then {}
  else metricRequests p (windowStart p now) 0 p.metrics

/-- Replace the first dataset with the given id, as `_.find` followed by a write
through the found reference does; `none` when no dataset has that id. -/
def modifyFound (id : String) (f : Dataset → Dataset) : List Dataset → Option (List Dataset)
  | [] => none
  | dataset :: rest =>
    if dataset.id = id then some (f dataset :: rest)
    else (modifyFound id f rest).map (dataset :: ·)

/-- The state a promise callback leaves, and the error it raised, if any. -/
structure Settled where
  panel : Panel
  effects : List ChartEffect := []
  thrown : Option JSError := none

/-- Write a metric back at its position in `scope.metrics`. -/
def setMetric (p : Panel) (index : ℕ) (metric : Metric) : Panel :=
  { p with metrics := p.metrics.set index metric }

/-- The `angular.forEach(responses, ...)` of the success callback: `_.find` the
dataset of each non-null response and call `updateData` on it. -/
def applyResponses (start : ℤ) (index : ℕ) (metric : Metric) (p : Panel) :
    List (Option Response) → Settled
  | [] => { panel := setMetric p index metric }
  | none :: rest => applyResponses start index metric p rest
  | some response :: rest =>
    let p := { p with noData := false }
    match modifyFound response.metricID (fun d => updateData start d response) metric.datasets with
    | none =>
      { panel := setMetric p index metric,
        thrown := some (.typeError "Cannot read property 'data' of undefined") }
    | some datasets => applyResponses start index { metric with datasets := datasets } p rest

/-- The success callback of `$q.all(promises).then(...)` for the metric at
`index`. -/
def onSuccess (usageValueFilter : String → JNum) (p : Panel) (start : ℤ) (index : ℕ)
    (responses : List (Option Response)) : Settled :=
  if p.destroyed then { panel := p }
  else
    match p.metrics.get? index with
    | none => { panel := p }
    | some metric =>
      let updated := applyResponses start index metric p responses
      match updated.thrown with
      | some e => { panel := updated.panel, thrown := some e }
      | none =>
        match updated.panel.metrics.get? index with
        | none => updated
        | some metric =>
          let chart := updateChart usageValueFilter updated.panel metric
          { panel := setMetric updated.panel index chart.metric,
            effects := chart.effects, thrown := chart.thrown }

/-- How one fetch ended: resolved with a response (or `null`), or rejected. -/
inductive FetchResult where
  | resolved (response : Option Response)
  | rejected (reason : JSVal)

/-- How `$q.all` ends: resolved with all the values in order, or rejected with
the reason of a rejected member. -/
inductive Joined where
  | resolved (responses : List (Option Response))
  | rejected (reason : JSVal)

/-- Function `$q.all` on fetches that have all ended. -/
def qAll : List FetchResult → Joined
  | [] => .resolved []
  | .rejected reason :: _ => .rejected reason
  | .resolved response :: rest =>
    match qAll rest with
    | .resolved responses => .resolved (response :: responses)
    | .rejected reason => .rejected reason

/-- The callbacks run when the joined promise of one metric ends: success or
failure, then `finally`, which sets `scope.loaded`. -/
def settle (usageValueFilter : String → JNum) (p : Panel) (start : ℤ) (index : ℕ) :
    Joined → Settled
  | .resolved responses =>
    let done := onSuccess usageValueFilter p start index responses
    { done with panel := { done.panel with loaded := true } }
  | .rejected reason => { panel := { onFailure p reason with loaded := true } }

/-- One whole update cycle: what was requested, the state after every callback
has run, the calls made to c3, and the errors nobody caught. -/
structure CycleResult where
  panel : Panel
  requests : List Config := []
  effects : List ChartEffect := []
  uncaught : List JSError := []

/-- Run the callbacks of the joined groups one after the other.  The metrics
source is the function `fetch`, which says how each request ends. -/
def settleAll (usageValueFilter : String → JNum) (fetch : Config → FetchResult) (start : ℤ) :
    Panel → List FetchGroup → CycleResult
  | p, [] => { panel := p }
  | p, group :: rest =>
    let done := settle usageValueFilter p start group.index (qAll (group.requests.map fetch))
    let later := settleAll usageValueFilter fetch start done.panel rest
    { panel := later.panel,
      requests := group.requests ++ later.requests,
      effects := done.effects ++ later.effects,
      uncaught := done.thrown.toList ++ later.uncaught }

/-- A call of `update()` followed by the callbacks of all the fetches it
started. -/
def updateCycle (usageValueFilter : String → JNum) (fetch : Config → FetchResult)
    (p : Panel) (now : ℤ) : CycleResult :=
  let started := update p now
  let done := settleAll usageValueFilter fetch (windowStart p now) p started.joined
  { done with
    requests := done.requests ++ started.orphaned,
    uncaught := started.thrown.toList ++ done.uncaught }

/-- The two `delete` loops of the `options` watch: drop the data of every
dataset and the recorded error. -/
def clearData (p : Panel) : Panel :=
  { p with
    metrics := p.metrics.map (fun metric =>
      { metric with datasets := metric.datasets.map (fun dataset =>
          { dataset with data := none }) }),
    metricsError := none }

/-- The listener of `scope.$watch('options', ..., true)`: clear, then `update()`. -/
def optionsChanged (p : Panel) (now : ℤ) : Panel × UpdateResult :=
  let cleared := clearData p
  (cleared, update cleared now)

/-- The listener of `$destroy`. -/
def destroy (p : Panel) : Panel :=
  { p with donutByMetric := [], sparklineByMetric := [], destroyed := true }

end Metrics

/-! # The overview service group -/

namespace ServiceGroup

/-- The DOM element an event started on, as far as `toggleCollapse` reads it. -/
structure Element where
  tagName : String
  deriving DecidableEq, Repr

/-- A click event; `target` may be missing. -/
structure Event where
  target : Option Element := none
  deriving DecidableEq, Repr

/-- The fields of `$scope` the directive writes; `ρ` is the type of a route.
`collapse` is `undefined` until something assigns it. -/
structure Scope (ρ : Type) where
  collapse : Option Bool := none
  displayRoute : Option ρ := none

/-- Function `$scope.toggleCollapse(e)`; `none` is a call without an event. -/
def toggleCollapse {ρ : Type} (e : Option Event) (s : Scope ρ) : Scope ρ :=
  match e.bind (·.target) with
  | some target =>
    if target.tagName = "A" then s
    else { s with collapse := some (!(s.collapse.getD false)) }
  | none => { s with collapse := some (!(s.collapse.getD false)) }

/-- The collapse state as the template reads it: the truthiness of
`$scope.collapse`, which is falsy while `undefined`. -/
def Scope.isCollapsed {ρ : Type} (s : Scope ρ) : Bool :=
  match s.collapse with
  | some b => b
  | none => false

/-- The body of `_.each(routes, function(candidate) {...})`.  The comparator
`RoutesService.getPreferredDisplayRoute` is defined outside the directive and is
a parameter; `none` stands for a falsy result. -/
def eachCandidate {ρ : Type} (getPreferredDisplayRoute : ρ → ρ → Option ρ)
    (displayRoute : Option ρ) (candidate : ρ) : Option ρ :=
  match displayRoute with
  | none => some candidate
  | some current => getPreferredDisplayRoute current candidate

/-- The local `displayRoute` after `_.each(routes, ...)`; `routes` is `none`
when `routesByService` has no entry for the service. -/
def selectDisplayRoute {ρ : Type} (getPreferredDisplayRoute : ρ → ρ → Option ρ)
    (routes : Option (List ρ)) : Option ρ :=
  (routes.getD []).foldl (eachCandidate getPreferredDisplayRoute) none

/-- The listener of the watch on `routesByService[serviceName]`. -/
def routesChanged {ρ : Type} (getPreferredDisplayRoute : ρ → ρ → Option ρ)
    (routes : Option (List ρ)) (s : Scope ρ) : Scope ρ :=
  { s with displayRoute := selectDisplayRoute getPreferredDisplayRoute routes }

/-- A route as the examples name it: its name and its creation time. -/
structure Route where
  name : String
  creationTimestamp : ℤ
  deriving DecidableEq, Repr

/-- The order of the example rule "the newer route wins": by creation time,
and by name between routes created at the same time. -/
def Route.key (r : Route) : ℤ ×ₗ String := toLex (r.creationTimestamp, r.name)

instance : LinearOrder Route :=
  LinearOrder.lift' Route.key (by
    intro a b h
    cases a
    cases b
    have h' := toLex.injective h
    simp only [Prod.mk.injEq] at h'
    simp [h'.1, h'.2])

/-- A preference comparator that favours the newer route. -/
def preferNewer (a b : Route) : Option Route := some (max a b)

end ServiceGroup

/-! # Theorems: the metrics panel -/

namespace Metrics

/-! ## Helper lemmas -/

theorem takeRightWhile_all {α : Type} (p : α → Bool) (l : List α) :
    ∀ x ∈ takeRightWhile p l, p x = true := by
  intro x hx
  unfold takeRightWhile at hx
  rw [List.mem_reverse] at hx
  exact (List.mem_takeWhile_imp hx)

theorem takeRightWhile_split {α : Type} (p : α → Bool) (l : List α) :
    l = (l.reverse.dropWhile p).reverse ++ takeRightWhile p l ∧
    ∀ x, (l.reverse.dropWhile p).reverse.getLast? = some x → p x = false := by
  constructor
  · have h := congrArg List.reverse (List.takeWhile_append_dropWhile p l.reverse)
    simp only [List.reverse_append, List.reverse_reverse] at h
    exact h.symm
  · intro x hx
    rw [List.getLast?_reverse] at hx
    have h := List.head?_dropWhile_not p l.reverse
    rw [hx] at h
    exact h

theorem initial_append_last {α : Type} (l : List α) (h : l ≠ []) :
    initial l ++ [l.getLast h] = l := by
  unfold initial
  exact List.dropLast_append_getLast h

theorem updateData_data (start : ℤ) (dataset : Dataset) (response : Response) :
    (updateData start dataset response).data =
      some (retained start dataset ++ initial response.data) := by
  unfold updateData retained
  cases h : dataset.data <;> simp

theorem retained_ge (start : ℤ) (dataset : Dataset) :
    ∀ point ∈ retained start dataset, start ≤ point.start := by
  intro point hpoint
  unfold retained at hpoint
  cases h : dataset.data with
  | none => simp [h] at hpoint
  | some old =>
    simp only [h] at hpoint
    have := takeRightWhile_all _ _ point hpoint
    simpa using this

/-! ## `updateData` -/

/-- C1, as stated, fails: a series whose last stored bucket ended at 20 is
asked to update for the window starting at 100; the response brings the buckets
from 20 on, and the ones that start at 20 and 60 are stored. -/
theorem updateData_trim_counterexample :
    ∃ point ∈ ((updateData 100
        { id := "cpu/usage", data := some [⟨0, 10, .num 1⟩, ⟨10, 20, .num 1⟩] }
        { metricID := "cpu/usage",
          data := [⟨20, 60, .num 1⟩, ⟨60, 100, .num 1⟩, ⟨100, 140, .num 1⟩,
                   ⟨140, 180, .num 1⟩] }).data.getD []),
      point.start < 100 := by
  decide

/-- C1, amended: `updateData` always stores a sample sequence and changes
nothing else of the series.  The previously stored samples split into a dropped
front part and a kept back part: every kept sample starts at or after `start`,
and the last dropped sample, if there is one, starts before `start`.  The stored
sequence is the kept samples followed by the buckets of the response without the
last one, appended untrimmed.  Hence the stored sequence has no sample that
starts before `start` exactly when no bucket of the response other than its last
one does. -/
theorem updateData_trim_invariant (start : ℤ) (dataset : Dataset) (response : Response) :
    ∃ dropped kept,
      dataset.data.getD [] = dropped ++ kept ∧
      (∀ point ∈ kept, start ≤ point.start) ∧
      (∀ lastDropped, dropped.getLast? = some lastDropped → lastDropped.start < start) ∧
      updateData start dataset response =
        { dataset with data := some (kept ++ response.data.dropLast) } ∧
      ((∀ point ∈ kept ++ response.data.dropLast, start ≤ point.start) ↔
        ∀ point ∈ response.data.dropLast, start ≤ point.start) := by
  have hiff : ∀ kept : List Sample, (∀ point ∈ kept, start ≤ point.start) →
      ((∀ point ∈ kept ++ response.data.dropLast, start ≤ point.start) ↔
        ∀ point ∈ response.data.dropLast, start ≤ point.start) := by
    intro kept hkept
    constructor
    · intro h point hpoint
      exact h point (List.mem_append_right _ hpoint)
    · intro h point hpoint
      rcases List.mem_append.mp hpoint with h1 | h1
      · exact hkept point h1
      · exact h point h1
  cases hdata : dataset.data with
  | none =>
    refine ⟨[], [], by simp, by simp, by simp, ?_, hiff [] (by simp)⟩
    simp [updateData, hdata, initial]
  | some old =>
    obtain ⟨hsplit, hlast⟩ := takeRightWhile_split (fun point => decide (point.start ≥ start)) old
    have hkept : ∀ point ∈ takeRightWhile (fun point => decide (point.start ≥ start)) old,
        start ≤ point.start := by
      intro point hpoint
      simpa using takeRightWhile_all _ _ point hpoint
    refine ⟨_, _, by simpa using hsplit, hkept, ?_, ?_, hiff _ hkept⟩
    · intro lastDropped hl
      have := hlast lastDropped hl
      simpa using this
    · simp [updateData, hdata, initial]

theorem updateData_trim_invariant_witness :
    ∃ dropped kept,
      [(⟨50, 60, .num 1⟩ : Sample), ⟨100, 110, .num 1⟩] = dropped ++ kept ∧
      (∀ point ∈ kept, (100 : ℤ) ≤ point.start) ∧
      (∀ lastDropped, dropped.getLast? = some lastDropped → lastDropped.start < 100) ∧
      updateData 100
          { id := "cpu/usage", data := some [⟨50, 60, .num 1⟩, ⟨100, 110, .num 1⟩] }
          ⟨"cpu/usage", [⟨110, 120, .num 2⟩, ⟨120, 130, .num 3⟩]⟩ =
        { id := "cpu/usage", data := some (kept ++ [⟨110, 120, .num 2⟩]) } ∧
      ((∀ point ∈ kept ++ [(⟨110, 120, .num 2⟩ : Sample)], (100 : ℤ) ≤ point.start) ↔
        ∀ point ∈ [(⟨110, 120, .num 2⟩ : Sample)], (100 : ℤ) ≤ point.start) :=
  updateData_trim_invariant 100
    { id := "cpu/usage", data := some [⟨50, 60, .num 1⟩, ⟨100, 110, .num 1⟩] }
    ⟨"cpu/usage", [⟨110, 120, .num 2⟩, ⟨120, 130, .num 3⟩]⟩

/-- C2: for a response with a non-empty `data`, `updateData` leaves out exactly
the final element of `response.data`: the stored sequence is the retained old
samples followed by the buckets before the final one, and just those buckets
when no samples were stored before. -/
theorem updateData_drops_partial_bucket (start : ℤ) (dataset : Dataset)
    (response : Response) (hne : response.data ≠ []) :
    ∃ copied, copied ++ [response.data.getLast hne] = response.data ∧
      copied.length + 1 = response.data.length ∧
      (updateData start dataset response).data = some
        (match dataset.data with
         | none => copied
         | some old => takeRightWhile (fun point => decide (point.start ≥ start)) old ++ copied) := by
  refine ⟨initial response.data, initial_append_last _ hne, ?_, ?_⟩
  · have h := congrArg List.length (initial_append_last response.data hne)
    simpa using h
  · unfold updateData
    cases h : dataset.data <;> simp

theorem updateData_drops_partial_bucket_witness :
    ∃ copied, copied ++ [(⟨120, 130, .num 3⟩ : Sample)] =
        [⟨110, 120, .num 2⟩, ⟨120, 130, .num 3⟩] ∧
      copied.length + 1 = 2 ∧
      (updateData 100
        { id := "cpu/usage", data := some [⟨50, 60, .num 1⟩, ⟨100, 110, .num 1⟩] }
        ⟨"cpu/usage", [⟨110, 120, .num 2⟩, ⟨120, 130, .num 3⟩]⟩).data =
          some (takeRightWhile (fun point => decide (point.start ≥ 100))
            [⟨50, 60, .num 1⟩, ⟨100, 110, .num 1⟩] ++ copied) :=
  updateData_drops_partial_bucket 100
    { id := "cpu/usage", data := some [⟨50, 60, .num 1⟩, ⟨100, 110, .num 1⟩] }
    ⟨"cpu/usage", [⟨110, 120, .num 2⟩, ⟨120, 130, .num 3⟩]⟩ (by decide)

/-! ## The failure callback -/

/-- C3, at the failing input: the joined promise is rejected with the payload
`{status: 503, data: {errorMsg: "unavailable"}}` itself, not with an array.
Applied to that payload the extraction gives `{503, "unavailable"}`, and the
same handler applied to an array holding the payload records it; but
`angular.forEach` walks the property values of the payload, `503` and
`{errorMsg: "unavailable"}`, so the recorded error is
`{status: 0, details: "Status code 0"}`.  The payload `{status: 503}` ends the
same way. -/
theorem onFailure_walks_payload_properties (p : Panel) (hlive : p.destroyed = false) :
    errorOf (.obj [("status", .num 503), ("data", .obj [("errorMsg", .str "unavailable")])]) =
      ⟨.num 503, .str "unavailable"⟩ ∧
    errorOf (.obj [("status", .num 503)]) = ⟨.num 503, .str "Status code 503"⟩ ∧
    (onFailure p (.arr [.obj [("status", .num 503),
        ("data", .obj [("errorMsg", .str "unavailable")])]])).metricsError =
      some ⟨.num 503, .str "unavailable"⟩ ∧
    (onFailure p (.obj [("status", .num 503),
        ("data", .obj [("errorMsg", .str "unavailable")])])).metricsError =
      some ⟨.num 0, .str "Status code 0"⟩ ∧
    (onFailure p (.obj [("status", .num 503)])).metricsError =
      some ⟨.num 0, .str "Status code 0"⟩ := by
  refine ⟨rfl, rfl, ?_, ?_, ?_⟩ <;>
    · simp only [onFailure, hlive, JSVal.forEachValues, List.foldl, List.map]
      rfl

theorem onFailure_walks_payload_properties_witness :
    (onFailure {} (.obj [("status", .num 503),
        ("data", .obj [("errorMsg", .str "unavailable")])])).metricsError =
      some ⟨.num 0, .str "Status code 0"⟩ :=
  (onFailure_walks_payload_properties {} rfl).2.2.2.1

/-! ## Requests of one cycle -/

theorem configStart_of_no_samples (dataset : Dataset) (start : ℤ)
    (h : dataset.data = none ∨ dataset.data = some []) : configStart dataset start = start := by
  rcases h with h | h <;> simp [configStart, h, last]

theorem configStart_of_last (dataset : Dataset) (start : ℤ) (data : List Sample)
    (lastPoint : Sample) (hdata : dataset.data = some data) (hlast : last data = some lastPoint) :
    configStart dataset start = lastPoint.end_ := by
  simp [configStart, hdata, hlast]

theorem getConfig_ok (p : Panel) (metric : Metric) (dataset : Dataset) (start : ℤ)
    (config : Config) (h : getConfig p metric dataset start = .ok (some config)) :
    config.metric = dataset.id ∧ config.start = configStart dataset start := by
  unfold getConfig at h
  cases hpod : p.pod with
  | some pod =>
    simp only [hpod] at h
    split at h
    · cases h
    · injection h with h
      injection h with h
      subst h
      exact ⟨rfl, rfl⟩
  | none =>
    simp only [hpod] at h
    cases hdep : p.deployment with
    | some deployment =>
      simp only [hdep] at h
      injection h with h
      injection h with h
      subst h
      exact ⟨rfl, rfl⟩
    | none =>
      simp only [hdep] at h
      injection h with h
      cases h

theorem datasetRequests_mem (p : Panel) (metric : Metric) (start : ℤ) (datasets : List Dataset) :
    ∀ config ∈ (datasetRequests p metric start datasets).1,
      ∃ dataset ∈ datasets, getConfig p metric dataset start = .ok (some config) := by
  induction datasets with
  | nil => intro config h; simp [datasetRequests] at h
  | cons dataset rest ih =>
    intro config h
    unfold datasetRequests at h
    split at h
    · simp at h
    · obtain ⟨d, hd, hc⟩ := ih config h
      exact ⟨d, List.mem_cons_of_mem _ hd, hc⟩
    · rename_i c hc
      simp only [List.mem_cons] at h
      rcases h with h | h
      · subst h
        exact ⟨dataset, List.mem_cons_self _ _, hc⟩
      · obtain ⟨d, hd, hc'⟩ := ih config h
        exact ⟨d, List.mem_cons_of_mem _ hd, hc'⟩

theorem metricRequests_mem (p : Panel) (start : ℤ) (metrics : List Metric) :
    ∀ (index : ℕ), ∀ group ∈ (metricRequests p start index metrics).joined,
      ∃ metric, index ≤ group.index ∧ metrics.get? (group.index - index) = some metric ∧
        group.requests = (datasetRequests p metric start metric.datasets).1 := by
  induction metrics with
  | nil => intro index group h; simp [metricRequests] at h
  | cons metric rest ih =>
    intro index group h
    unfold metricRequests at h
    split at h
    · simp at h
    · rename_i configs hreq
      simp only [List.mem_cons] at h
      rcases h with h | h
      · subst h
        refine ⟨metric, le_refl _, by simp, ?_⟩
        simp [hreq]
      · obtain ⟨m, hle, hget, hr⟩ := ih (index + 1) group h
        refine ⟨m, by omega, ?_, hr⟩
        have : group.index - index = (group.index - (index + 1)) + 1 := by omega
        rw [this]
        simpa using hget

theorem canUpdate_bound (p : Panel) (h : canUpdate p = true) :
    p.pod ≠ none ∨ p.deployment ≠ none := by
  unfold canUpdate at h
  cases hpod : p.pod with
  | some pod => exact Or.inl (by simp)
  | none =>
    cases hdep : p.deployment with
    | some deployment => exact Or.inr (by simp)
    | none => simp [hpod, hdep] at h

theorem getConfig_bound (p : Panel) (metric : Metric) (dataset : Dataset) (start : ℤ)
    (hbound : p.pod ≠ none ∨ p.deployment ≠ none) :
    getConfig p metric dataset start ≠ .ok none := by
  unfold getConfig
  cases hpod : p.pod with
  | some pod =>
    simp only
    split
    · intro h; cases h
    · intro h
      injection h with h
      cases h
  | none =>
    cases hdep : p.deployment with
    | some deployment =>
      simp only
      intro h
      injection h with h
      cases h
    | none => simp [hpod, hdep] at hbound

theorem datasetRequests_starts (p : Panel) (metric : Metric) (start : ℤ)
    (hbound : p.pod ≠ none ∨ p.deployment ≠ none) :
    ∀ datasets : List Dataset, (datasetRequests p metric start datasets).2 = none →
      (datasetRequests p metric start datasets).1.map (fun config => (config.metric, config.start)) =
        datasets.map (fun dataset => (dataset.id, configStart dataset start)) := by
  intro datasets
  induction datasets with
  | nil => intro _; rfl
  | cons dataset rest ih =>
    intro hok
    unfold datasetRequests at hok ⊢
    cases hcfg : getConfig p metric dataset start with
    | error e => simp [hcfg] at hok
    | ok result =>
      cases result with
      | none => exact absurd hcfg (getConfig_bound p metric dataset start hbound)
      | some config =>
        simp only [hcfg] at hok ⊢
        obtain ⟨hid, hstart⟩ := getConfig_ok p metric dataset start config hcfg
        simp only [List.map_cons, hid, hstart]
        rw [ih hok]

theorem metricRequests_starts (p : Panel) (start : ℤ)
    (hbound : p.pod ≠ none ∨ p.deployment ≠ none) :
    ∀ (metrics : List Metric) (index : ℕ), (metricRequests p start index metrics).thrown = none →
      (metricRequests p start index metrics).orphaned = [] ∧
      (metricRequests p start index metrics).joined.map (·.index) =
        List.range' index metrics.length ∧
      (metricRequests p start index metrics).joined.map
          (fun group => group.requests.map (fun config => (config.metric, config.start))) =
        metrics.map (fun metric =>
          metric.datasets.map (fun dataset => (dataset.id, configStart dataset start))) := by
  intro metrics
  induction metrics with
  | nil => intro index _; exact ⟨rfl, rfl, rfl⟩
  | cons metric rest ih =>
    intro index hok
    unfold metricRequests at hok ⊢
    cases hreq : datasetRequests p metric start metric.datasets with
    | mk configs thrown =>
      cases thrown with
      | some e => simp [hreq] at hok
      | none =>
        simp only [hreq] at hok ⊢
        obtain ⟨h1, h2, h3⟩ := ih (index + 1) hok
        have hds := datasetRequests_starts p metric start hbound metric.datasets
          (by rw [hreq])
        rw [hreq] at hds
        refine ⟨h1, ?_, ?_⟩
        · simp only [List.map_cons, h2, List.length_cons, List.range'_succ]
        · simp only [List.map_cons, h3, hds]

theorem getConfig_no_error (p : Panel) (metric : Metric) (dataset : Dataset) (start : ℤ)
    (hsafe : p.pod = none ∨ p.compact = true ∨ p.options.selectedContainer ≠ none) :
    ∀ e, getConfig p metric dataset start ≠ .error e := by
  intro e
  unfold getConfig
  cases hpod : p.pod with
  | none =>
    cases hdep : p.deployment <;> simp
  | some pod =>
    cases hmetric : metric.containerMetric with
    | false => simp
    | true =>
      cases hcompact : p.compact with
      | true => simp
      | false =>
        cases hsel : p.options.selectedContainer with
        | some container => simp
        | none => simp [hpod, hcompact, hsel] at hsafe

theorem datasetRequests_no_throw (p : Panel) (metric : Metric) (start : ℤ)
    (hsafe : p.pod = none ∨ p.compact = true ∨ p.options.selectedContainer ≠ none) :
    ∀ datasets : List Dataset, (datasetRequests p metric start datasets).2 = none := by
  intro datasets
  induction datasets with
  | nil => rfl
  | cons dataset rest ih =>
    unfold datasetRequests
    cases hcfg : getConfig p metric dataset start with
    | error e => exact absurd hcfg (getConfig_no_error p metric dataset start hsafe e)
    | ok result =>
      cases result with
      | none => simpa using ih
      | some config => simpa using ih

theorem metricRequests_no_throw (p : Panel) (start : ℤ)
    (hsafe : p.pod = none ∨ p.compact = true ∨ p.options.selectedContainer ≠ none) :
    ∀ (metrics : List Metric) (index : ℕ), (metricRequests p start index metrics).thrown = none := by
  intro metrics
  induction metrics with
  | nil => intro index; rfl
  | cons metric rest ih =>
    intro index
    unfold metricRequests
    have hds := datasetRequests_no_throw p metric start hsafe metric.datasets
    cases hreq : datasetRequests p metric start metric.datasets with
    | mk configs thrown =>
      rw [hreq] at hds
      simp only at hds
      subst hds
      simpa using ih (index + 1)

theorem configStart_eq (dataset : Dataset) (start : ℤ) :
    configStart dataset start =
      (match (dataset.data.getD []).getLast? with
       | some lastPoint => lastPoint.end_
       | none => start) := by
  unfold configStart last
  cases hdata : dataset.data with
  | none => simp
  | some data => simp

/-- C4, at the failing inputs: whenever `update()` may run, and no pod is bound
without a selected container outside the compact profile, it raises nothing,
joins one group per metric and sends one request per series, and the start of
each request is the end of the last sample the series holds; only a series
without samples is requested from the window start of the cycle, `now` minus the
window length.  So two series of one chart whose stored samples end at different
times are requested from different starts, although `update()` passes one
`start` to every call of `getConfig` and its comment asks for the same `start`
in every request. -/
theorem update_request_starts (p : Panel) (now : ℤ) (hcan : canUpdate p = true)
    (hsafe : p.pod = none ∨ p.compact = true ∨ p.options.selectedContainer ≠ none) :
    (update p now).thrown = none ∧
    (update p now).orphaned = [] ∧
    (update p now).joined.map (·.index) = List.range p.metrics.length ∧
    (update p now).joined.map
        (fun group => group.requests.map (fun config => (config.metric, config.start))) =
      p.metrics.map (fun metric => metric.datasets.map (fun dataset =>
        (dataset.id,
          match (dataset.data.getD []).getLast? with
          | some lastPoint => lastPoint.end_
          | none => now - getTimeRangeMillis p))) := by
  have hupdate : update p now = metricRequests p (windowStart p now) 0 p.metrics := by
    simp [update, hcan]
  have hok := metricRequests_no_throw p (windowStart p now) hsafe p.metrics 0
  rw [hupdate]
  obtain ⟨h1, h2, h3⟩ :=
    metricRequests_starts p (windowStart p now) (canUpdate_bound p hcan) p.metrics 0 hok
  refine ⟨hok, h1, ?_, ?_⟩
  · rw [h2, List.range_eq_range']
  · rw [h3]
    simp only [configStart_eq, windowStart]

theorem update_request_starts_witness :
    (update
      { deployment := some ⟨"demo", "frontend"⟩,
        metrics :=
          [{ networkMetric with datasets :=
              [{ id := "network/tx", label := some "Sent",
                 data := some [⟨0, 10, .num 1⟩] },
               { id := "network/rx", label := some "Received",
                 data := some [⟨0, 10, .num 1⟩, ⟨10, 20, .num 1⟩] }] }] }
      3600100).joined.map
        (fun group => group.requests.map (fun config => (config.metric, config.start))) =
      [[("network/tx", 10), ("network/rx", 20)]] ∧
    (3600100 : ℤ) - getTimeRangeMillis { deployment := some ⟨"demo", "frontend"⟩ } = 100 :=
  ⟨(update_request_starts
      { deployment := some ⟨"demo", "frontend"⟩,
        metrics :=
          [{ networkMetric with datasets :=
              [{ id := "network/tx", label := some "Sent",
                 data := some [⟨0, 10, .num 1⟩] },
               { id := "network/rx", label := some "Received",
                 data := some [⟨0, 10, .num 1⟩, ⟨10, 20, .num 1⟩] }] }] }
      3600100 (by decide) (Or.inl rfl)).2.2.2,
   by decide⟩

/-! ## `updateChart` and missing or empty data -/

theorem updateChartDataset_empty (usageValueFilter : String → JNum) (p : Panel)
    (metric : Metric) (acc : ChartAcc) (dataset : Dataset) (h : dataset.data = some []) :
    (updateChartDataset usageValueFilter p metric acc dataset).thrown =
      some (.typeError "Cannot read property 'value' of undefined") := by
  simp [updateChartDataset, h, last]

theorem updateChart_skips_missing_data (usageValueFilter : String → JNum) (p : Panel)
    (metric : Metric) (h : ∃ dataset ∈ metric.datasets, dataset.data = none) :
    updateChart usageValueFilter p metric = { metric := metric } := by
  obtain ⟨dataset, hmem, hnone⟩ := h
  have hany : metric.datasets.any (fun dataset => dataset.data.isNone) = true :=
    List.any_eq_true.mpr ⟨dataset, hmem, by simp [hnone]⟩
  simp [updateChart, hany]

/-- C5, at the failing input: a series without stored data receives a response
of zero or one bucket; `updateData` stores the empty sequence, the guard of
`updateChart` lets it through because an empty array is truthy, and
`_.last(metricData).value` raises a `TypeError`. -/
theorem updateChart_throws_after_short_response (usageValueFilter : String → JNum)
    (p : Panel) (metric : Metric) (dataset : Dataset) (response : Response) (start : ℤ)
    (hnone : dataset.data = none) (hshort : response.data.length ≤ 1) :
    (updateData start dataset response).data = some [] ∧
    (updateChart usageValueFilter p
      { metric with datasets := [updateData start dataset response] }).thrown =
      some (.typeError "Cannot read property 'value' of undefined") := by
  have hdata : (updateData start dataset response).data = some [] := by
    rw [updateData_data]
    have hinit : initial response.data = [] := by
      unfold initial
      match hd : response.data with
      | [] => rfl
      | [_] => rfl
      | _ :: _ :: _ => rw [hd] at hshort; simp at hshort
    simp [retained, hnone, hinit]
  refine ⟨hdata, ?_⟩
  have hstep := updateChartDataset_empty usageValueFilter p
    { metric with datasets := [updateData start dataset response] } { totalUsed := .num 0 }
    (updateData start dataset response) hdata
  simp [updateChart, hdata, updateChartLoop, hstep]

theorem updateChart_throws_after_short_response_witness :
    (updateData 100 { id := "cpu/usage", label := some "CPU", data := none }
      ⟨"cpu/usage", [⟨100, 160, .num 5⟩]⟩).data = some [] ∧
    (updateChart (fun _ => .null) {}
      { cpuMetric with datasets :=
          [updateData 100 { id := "cpu/usage", label := some "CPU", data := none }
            ⟨"cpu/usage", [⟨100, 160, .num 5⟩]⟩] }).thrown =
      some (.typeError "Cannot read property 'value' of undefined") :=
  updateChart_throws_after_short_response (fun _ => .null) {} cpuMetric
    { id := "cpu/usage", label := some "CPU", data := none }
    ⟨"cpu/usage", [⟨100, 160, .num 5⟩]⟩ 100 rfl (by decide)

/-- The same failure seen from a whole cycle: a panel bound to a deployment has
just had its options changed; the metrics source answers each request with a
single bucket; the success callback of the CPU metric raises the `TypeError`,
which nothing in the directive catches. -/
theorem updateCycle_uncaught_after_short_response (usageValueFilter : String → JNum) :
    (updateCycle usageValueFilter
      (fun config => .resolved (some ⟨config.metric, [⟨config.start, config.start + 60000, .num 5⟩]⟩))
      (clearData (link none (some ⟨"demo", "frontend"⟩) none (some ["cpu"])))
      3600100).uncaught =
    [.typeError "Cannot read property 'value' of undefined"] := by
  rfl

/-! ## `updateChart`: used, total, available -/

theorem jnum_map_numeric (f : ℚ → ℚ) (v : JNum) (h : ∃ u, v.toNumber = .num u) :
    ∃ u, (JNum.map f v).toNumber = .num u := by
  obtain ⟨u, hu⟩ := h
  refine ⟨f u, ?_⟩
  unfold JNum.map
  rw [hu]
  rfl

theorem convert_apply_numeric (c : Convert) (v : JNum) (h : ∃ u, v.toNumber = .num u) :
    ∃ u, (c.apply v).toNumber = .num u := by
  cases c with
  | bytesToMiB =>
    simp only [Convert.apply, Metrics.bytesToMiB]
    split
    · exact h
    · exact jnum_map_numeric _ _ (jnum_map_numeric _ _ h)
  | round => exact jnum_map_numeric _ _ h
  | bytesToKiB =>
    simp only [Convert.apply, Metrics.bytesToKiB]
    split
    · exact h
    · exact jnum_map_numeric _ _ (jnum_map_numeric _ _ h)

theorem usedOf_numeric (metric : Metric) (lastPoint : Sample) :
    ∃ u, (usedOf metric lastPoint).toNumber = .num u := by
  have hlast : ∃ u, (if lastPoint.value.isNaN then JNum.num 0 else lastPoint.value).toNumber
      = .num u := by
    cases lastPoint.value <;> simp [JNum.isNaN, JNum.toNumber]
  unfold usedOf
  cases metric.convert with
  | none => exact hlast
  | some c => exact convert_apply_numeric c _ hlast

theorem updateChartDataset_of_last (usageValueFilter : String → JNum) (p : Panel)
    (metric : Metric) (acc : ChartAcc) (dataset : Dataset) (lastPoint : Sample)
    (h : last (dataset.data.getD []) = some lastPoint) :
    let step := updateChartDataset usageValueFilter p metric acc dataset
    step.thrown = none ∧ step.dataset.id = dataset.id ∧
    step.dataset.total = getLimit usageValueFilter p dataset.id ∧
    step.dataset.used = usedOf metric lastPoint ∧
    step.dataset.available =
      (if (getLimit usageValueFilter p dataset.id).truthy then
        JNum.max (JNum.sub (getLimit usageValueFilter p dataset.id) (usedOf metric lastPoint))
          (.num 0)
       else dataset.available) := by
  simp only [updateChartDataset, h]
  refine ⟨?_, ?_, ?_, ?_, ?_⟩
  all_goals first | trivial | (split <;> simp_all)

theorem updateChartDataset_effects (usageValueFilter : String → JNum) (p : Panel)
    (metric : Metric) (acc : ChartAcc) (dataset : Dataset) (lastPoint : Sample)
    (h : last (dataset.data.getD []) = some lastPoint) :
    let step := updateChartDataset usageValueFilter p metric acc dataset
    ((getLimit usageValueFilter p dataset.id).truthy = true →
      ∃ e ∈ step.acc.effects, e.donut? = some (dataset.id,
        ⟨[[.str "Used", .val step.dataset.used], [.str "Available", .val step.dataset.available]]⟩)) ∧
    (∀ e ∈ step.acc.effects, e ∈ acc.effects ∨
      ((getLimit usageValueFilter p dataset.id).truthy = true ∧
        ∃ data, e.donut? = some (dataset.id, data))) ∧
    (∀ e ∈ acc.effects, e ∈ step.acc.effects) := by
  simp only [updateChartDataset, h]
  refine ⟨?_, ?_, ?_⟩
  · intro ht
    simp only [ht, if_true]
    split
    · exact ⟨_, List.mem_append_right _ (List.mem_singleton_self _), rfl⟩
    · exact ⟨_, List.mem_append_right _ (List.mem_singleton_self _), rfl⟩
  · intro e he
    rcases List.mem_append.mp he with he | he
    · exact Or.inl he
    · right
      split at he
      · rename_i ht
        refine ⟨ht, ?_⟩
        split at he
        · rw [List.mem_singleton.mp he]; exact ⟨_, rfl⟩
        · rw [List.mem_singleton.mp he]; exact ⟨_, rfl⟩
      · simp at he
  · intro e he
    exact List.mem_append_left _ he

theorem updateChartLoop_spec (usageValueFilter : String → JNum) (p : Panel) (metric : Metric) :
    ∀ (datasets : List Dataset) (acc : ChartAcc),
      (∀ d ∈ datasets, ∃ lastPoint, last (d.data.getD []) = some lastPoint) →
      (updateChartLoop usageValueFilter p metric acc datasets).2.2 = none ∧
      (∀ e ∈ acc.effects,
        e ∈ (updateChartLoop usageValueFilter p metric acc datasets).2.1.effects) ∧
      (∀ e ∈ (updateChartLoop usageValueFilter p metric acc datasets).2.1.effects,
        e ∈ acc.effects ∨ ∃ d ∈ datasets,
          (getLimit usageValueFilter p d.id).truthy = true ∧
            ∃ data, e.donut? = some (d.id, data)) ∧
      (∀ i d, datasets.get? i = some d → ∃ d' lastPoint,
        (updateChartLoop usageValueFilter p metric acc datasets).1.get? i = some d' ∧
        last (d.data.getD []) = some lastPoint ∧ d'.id = d.id ∧
        d'.total = getLimit usageValueFilter p d.id ∧
        d'.used = usedOf metric lastPoint ∧
        d'.available =
          (if (getLimit usageValueFilter p d.id).truthy then
            JNum.max (JNum.sub (getLimit usageValueFilter p d.id) (usedOf metric lastPoint))
              (.num 0)
           else d.available) ∧
        ((getLimit usageValueFilter p d.id).truthy = true →
          ∃ e ∈ (updateChartLoop usageValueFilter p metric acc datasets).2.1.effects,
            e.donut? = some (d.id,
              ⟨[[.str "Used", .val d'.used], [.str "Available", .val d'.available]]⟩))) := by
  intro datasets
  induction datasets with
  | nil =>
    intro acc _
    refine ⟨rfl, fun e he => he, fun e he => Or.inl he, ?_⟩
    intro i d h
    simp at h
  | cons dataset rest ih =>
    intro acc hdata
    obtain ⟨lastPoint, hlast⟩ := hdata dataset (List.mem_cons_self _ _)
    have hstep := updateChartDataset_of_last usageValueFilter p metric acc dataset lastPoint hlast
    have heff := updateChartDataset_effects usageValueFilter p metric acc dataset lastPoint hlast
    simp only at hstep heff
    obtain ⟨hthrown, hid, htotal, hused, havail⟩ := hstep
    obtain ⟨hdonut, hfrom, hkeep⟩ := heff
    have hrest := ih (updateChartDataset usageValueFilter p metric acc dataset).acc
      (fun d hd => hdata d (List.mem_cons_of_mem _ hd))
    obtain ⟨h1, h2, h3, h4⟩ := hrest
    have hloop : updateChartLoop usageValueFilter p metric acc (dataset :: rest) =
        ((updateChartDataset usageValueFilter p metric acc dataset).dataset ::
          (updateChartLoop usageValueFilter p metric
            (updateChartDataset usageValueFilter p metric acc dataset).acc rest).1,
         (updateChartLoop usageValueFilter p metric
            (updateChartDataset usageValueFilter p metric acc dataset).acc rest).2.1,
         (updateChartLoop usageValueFilter p metric
            (updateChartDataset usageValueFilter p metric acc dataset).acc rest).2.2) := by
      conv_lhs => unfold updateChartLoop
      simp only [hthrown]
    rw [hloop]
    refine ⟨h1, fun e he => h2 e (hkeep e he), ?_, ?_⟩
    · intro e he
      rcases h3 e he with h | ⟨d, hd, ht, hdat⟩
      · rcases hfrom e h with h | ⟨ht, hdat⟩
        · exact Or.inl h
        · exact Or.inr ⟨dataset, List.mem_cons_self _ _, ht, hdat⟩
      · exact Or.inr ⟨d, List.mem_cons_of_mem _ hd, ht, hdat⟩
    · intro i d hget
      cases i with
      | zero =>
        simp only [List.get?_cons_zero, Option.some.injEq] at hget
        subst hget
        refine ⟨_, lastPoint, by simp, hlast, hid, htotal, hused, havail, ?_⟩
        intro ht
        obtain ⟨e, he, hd⟩ := hdonut ht
        exact ⟨e, h2 e he, hd⟩
      | succ j =>
        simp only [List.get?_cons_succ] at hget
        obtain ⟨d', lp, hg, hl, r1, r2, r3, r4, r5⟩ := h4 j d hget
        exact ⟨d', lp, by simpa using hg, hl, r1, r2, r3, r4, r5⟩

theorem jnum_truthy_num (v : JNum) (h : v.truthy = true) : ∃ t, v = .num t ∧ t ≠ 0 := by
  cases v with
  | num q => exact ⟨q, rfl, by simpa [JNum.truthy] using h⟩
  | _ => simp [JNum.truthy] at h

theorem jnum_max_sub_zero (t u : ℚ) (used : JNum) (h : used.toNumber = .num u) :
    JNum.max (JNum.sub (.num t) used) (.num 0) = .num (max (t - u) 0) := by
  unfold JNum.max JNum.sub JNum.map₂
  rw [h]
  simp only [JNum.toNumber, max_def]

/-- C6, as stated, fails at `total = 0`: the selected container has a memory
limit of `100Ki`, which is 102400 bytes and rounds to 0 MiB; the last sample is
5 MiB.  The claim asks for `available = max(0 - 5, 0) = 0` and a donut showing
it; the code leaves `available` undefined and sends no donut. -/
theorem updateChart_zero_total_counterexample :
    let result := updateChart (fun _ => .num 102400)
      { pod := some ⟨"demo", "web-1"⟩,
        options := { selectedContainer := some { name := "web", memoryLimit := some "100Ki" } } }
      { memoryMetric with datasets :=
          [{ id := "memory/usage", label := some "Memory",
             data := some [⟨0, 60000, .num 5242880⟩] }] }
    result.thrown = none ∧
    result.metric.datasets.map (fun d => (d.total, d.used, d.available)) =
      [(.num 0, .num 5, .undefined)] ∧
    result.effects.filterMap ChartEffect.donut? = [] := by
  decide!

/-- C6, amended: when every series of the metric holds at least one sample,
`updateChart` raises no error and sets `total` of each series from `getLimit`.
For a series whose total is known and not zero, `used` is a number `u` (`null`
counting as 0), `available` is `max(total - u, 0)`, which is never negative, and
a donut is sent with the columns `Used` and `Available` holding these values.
For a series whose total is absent or zero, `available` is left as it was and
no donut is sent. -/
theorem updateChart_available (usageValueFilter : String → JNum) (p : Panel) (metric : Metric)
    (hdata : ∀ d ∈ metric.datasets, ∃ data, d.data = some data ∧ data ≠ []) :
    (updateChart usageValueFilter p metric).thrown = none ∧
    ∀ i d, metric.datasets.get? i = some d →
      ∃ d', (updateChart usageValueFilter p metric).metric.datasets.get? i = some d' ∧
        d'.total = getLimit usageValueFilter p d.id ∧
        (d'.total.truthy = true → ∃ t u, d'.total = .num t ∧ d'.used.toNumber = .num u ∧
          d'.available = .num (max (t - u) 0) ∧ 0 ≤ max (t - u) 0 ∧
          ∃ e ∈ (updateChart usageValueFilter p metric).effects,
            e.donut? = some (d.id,
              ⟨[[.str "Used", .val d'.used], [.str "Available", .val (.num (max (t - u) 0))]]⟩)) ∧
        (d'.total.truthy = false → d'.available = d.available ∧
          ∀ e ∈ (updateChart usageValueFilter p metric).effects,
            ∀ data, e.donut? ≠ some (d.id, data)) := by
  have hlast : ∀ d ∈ metric.datasets, ∃ lastPoint, last (d.data.getD []) = some lastPoint := by
    intro d hd
    obtain ⟨data, hsome, hne⟩ := hdata d hd
    refine ⟨data.getLast hne, ?_⟩
    simp [hsome, last, List.getLast?_eq_getLast _ hne]
  have hany : metric.datasets.any (fun dataset => dataset.data.isNone) = false := by
    rw [Bool.eq_false_iff]
    intro h
    obtain ⟨d, hd, hnone⟩ := List.any_eq_true.mp h
    obtain ⟨data, hsome, _⟩ := hdata d hd
    simp [hsome] at hnone
  have hspec := updateChartLoop_spec usageValueFilter p metric metric.datasets
    { totalUsed := .num 0 } hlast
  generalize hloop :
    updateChartLoop usageValueFilter p metric { totalUsed := .num 0 } metric.datasets = r at hspec
  obtain ⟨datasets, acc, thrown⟩ := r
  simp only at hspec
  obtain ⟨hthrown, _, hfrom, hget⟩ := hspec
  subst hthrown
  have hres : updateChart usageValueFilter p metric =
      { metric := { metric with datasets := datasets, totalUsed := JNum.round acc.totalUsed 1 },
        effects := acc.effects ++
          [if metric.chartPrefix ++ "sparkline" ∈ p.sparklineByMetric then
            ChartEffect.loadSparkline (metric.chartPrefix ++ "sparkline")
              { type := metric.chartType.getD "area", x := "dates",
                columns := acc.dates :: acc.values.map (fun kv => some kv.2) }
           else ChartEffect.generateSparklineLater (metric.chartPrefix ++ "sparkline")
              { type := metric.chartType.getD "area", x := "dates",
                columns := acc.dates :: acc.values.map (fun kv => some kv.2) }] } := by
    simp only [updateChart, hany, hloop]
    rfl
  rw [hres]
  refine ⟨rfl, ?_⟩
  intro i d hd
  obtain ⟨d', lastPoint, hg, _, hid, htotal, hused, havail, hdonut⟩ := hget i d hd
  refine ⟨d', hg, htotal, ?_, ?_⟩
  · intro ht
    obtain ⟨t, htn, _⟩ := jnum_truthy_num _ ht
    obtain ⟨u, hu⟩ := usedOf_numeric metric lastPoint
    rw [htotal] at ht htn
    have hav : d'.available = .num (max (t - u) 0) := by
      rw [havail, if_pos ht, htn]
      exact jnum_max_sub_zero t u _ hu
    refine ⟨t, u, htotal.trans htn, by rw [hused]; exact hu, hav, le_max_right _ _, ?_⟩
    obtain ⟨e, he, hd⟩ := hdonut ht
    refine ⟨e, List.mem_append_left _ he, ?_⟩
    rw [hd, hav]
  · intro hf
    rw [htotal] at hf
    refine ⟨by rw [havail]; simp [hf], ?_⟩
    intro e he data hdon
    rcases List.mem_append.mp he with he | he
    · rcases hfrom e he with h | ⟨d2, _, ht2, data2, hd2⟩
      · simp at h
      · rw [hd2] at hdon
        simp only [Option.some.injEq, Prod.mk.injEq] at hdon
        rw [hdon.1, hf] at ht2
        cases ht2
    · rw [List.mem_singleton] at he
      subst he
      split at hdon <;> simp [ChartEffect.donut?] at hdon

theorem updateChart_available_witness :
    (updateChart (fun _ => .num 536870912)
      { pod := some ⟨"demo", "web-1"⟩,
        options := { selectedContainer := some { name := "web", memoryLimit := some "512Mi" } } }
      { memoryMetric with datasets :=
          [{ id := "memory/usage", label := some "Memory",
             data := some [⟨0, 60000, .num 104857600⟩] }] }).thrown = none ∧
    (updateChart (fun _ => .num 536870912)
      { pod := some ⟨"demo", "web-1"⟩,
        options := { selectedContainer := some { name := "web", memoryLimit := some "512Mi" } } }
      { memoryMetric with datasets :=
          [{ id := "memory/usage", label := some "Memory",
             data := some [⟨0, 60000, .num 104857600⟩] }] }).metric.datasets.map
        (fun d => (d.total, d.used, d.available)) = [(.num 512, .num 100, .num 412)] :=
  ⟨(updateChart_available (fun _ => .num 536870912)
      { pod := some ⟨"demo", "web-1"⟩,
        options := { selectedContainer := some { name := "web", memoryLimit := some "512Mi" } } }
      { memoryMetric with datasets :=
          [{ id := "memory/usage", label := some "Memory",
             data := some [⟨0, 60000, .num 104857600⟩] }] }
      (by decide)).1,
   by decide!⟩

/-! ## The options watch and the update gate -/

theorem clearData_no_data (p : Panel) :
    ∀ metric ∈ (clearData p).metrics, ∀ dataset ∈ metric.datasets, dataset.data = none := by
  intro metric hmetric dataset hdataset
  simp only [clearData, List.mem_map] at hmetric
  obtain ⟨m, _, hm⟩ := hmetric
  subst hm
  simp only [List.mem_map] at hdataset
  obtain ⟨d, _, hd⟩ := hdataset
  subst hd
  rfl

theorem update_start_of_no_data (p : Panel) (now : ℤ)
    (hnone : ∀ metric ∈ p.metrics, ∀ dataset ∈ metric.datasets, dataset.data = none) :
    ∀ group ∈ (update p now).joined, ∀ config ∈ group.requests,
      config.start = windowStart p now := by
  intro group hgroup config hconfig
  unfold update at hgroup
  split at hgroup
  · simp at hgroup
  · obtain ⟨metric, _, hget, hreq⟩ := metricRequests_mem p _ p.metrics 0 group hgroup
    rw [hreq] at hconfig
    obtain ⟨dataset, hmem, hcfg⟩ := datasetRequests_mem p metric _ metric.datasets config hconfig
    obtain ⟨_, hstart⟩ := getConfig_ok p metric dataset _ config hcfg
    have hm : metric ∈ p.metrics := List.get?_mem hget
    rw [hstart, configStart_of_no_samples dataset _ (Or.inl (hnone metric hm dataset hmem))]

/-- C9: whatever the panel state, the listener of the options watch turns it
into the state that differs only in this: every series of every metric, in
place, has lost its stored data, and no error is recorded; target, profile,
options, flags and chart registries are the ones of the panel.  `update()` is
called on exactly that state.  There an error no longer blocks the fetch, and
when the fetch may run, and no pod is bound without a selected container outside
the compact profile, it raises nothing and requests every series of every metric
from the window start, `now` minus the window length. -/
theorem optionsChanged_clears (p : Panel) (now : ℤ) :
    ((optionsChanged p now).1.pod = p.pod ∧
      (optionsChanged p now).1.deployment = p.deployment ∧
      (optionsChanged p now).1.compact = p.compact ∧
      (optionsChanged p now).1.options = p.options ∧
      (optionsChanged p now).1.loaded = p.loaded ∧
      (optionsChanged p now).1.noData = p.noData ∧
      (optionsChanged p now).1.destroyed = p.destroyed ∧
      (optionsChanged p now).1.donutByMetric = p.donutByMetric ∧
      (optionsChanged p now).1.sparklineByMetric = p.sparklineByMetric) ∧
    (optionsChanged p now).1.metricsError = none ∧
    (optionsChanged p now).1.metrics.length = p.metrics.length ∧
    (∀ i metric, p.metrics.get? i = some metric →
      ∃ datasets, (optionsChanged p now).1.metrics.get? i =
          some { metric with datasets := datasets } ∧
        datasets.length = metric.datasets.length ∧
        ∀ j dataset, metric.datasets.get? j = some dataset →
          datasets.get? j = some { dataset with data := none }) ∧
    (optionsChanged p now).2 = update (optionsChanged p now).1 now ∧
    (canUpdate (optionsChanged p now).1 = true ↔
      (p.deployment ≠ none ∨
        (p.pod ≠ none ∧ (p.compact = true ∨ p.options.selectedContainer ≠ none)))) ∧
    (canUpdate (optionsChanged p now).1 = true →
      (p.pod = none ∨ p.compact = true ∨ p.options.selectedContainer ≠ none) →
      (optionsChanged p now).2.thrown = none ∧
      (optionsChanged p now).2.joined.map
          (fun group => group.requests.map (fun config => (config.metric, config.start))) =
        p.metrics.map (fun metric => metric.datasets.map (fun dataset =>
          (dataset.id, now - getTimeRangeMillis p)))) := by
  refine ⟨⟨rfl, rfl, rfl, rfl, rfl, rfl, rfl, rfl, rfl⟩, rfl, ?_, ?_, rfl, ?_, ?_⟩
  · simp [optionsChanged, clearData]
  · intro i metric hget
    refine ⟨metric.datasets.map (fun dataset => { dataset with data := none }), ?_, ?_, ?_⟩
    · show (clearData p).metrics.get? i = _
      simp only [clearData]
      rw [List.get?_eq_getElem?] at hget ⊢
      rw [List.getElem?_map, hget]
      rfl
    · simp
    · intro j dataset hj
      rw [List.get?_eq_getElem?] at hj ⊢
      rw [List.getElem?_map, hj]
      rfl
  · show canUpdate (clearData p) = true ↔ _
    unfold canUpdate clearData
    cases hdep : p.deployment <;> cases hpod : p.pod <;>
      cases hc : p.compact <;> cases hsel : p.options.selectedContainer <;> simp
  · intro hcan hsafe
    have hcan' : canUpdate (clearData p) = true := hcan
    have hok := metricRequests_no_throw (clearData p) (windowStart (clearData p) now)
      (show (clearData p).pod = none ∨ (clearData p).compact = true ∨
        (clearData p).options.selectedContainer ≠ none from hsafe) (clearData p).metrics 0
    have hupdate : (optionsChanged p now).2 =
        metricRequests (clearData p) (windowStart (clearData p) now) 0 (clearData p).metrics := by
      simp [optionsChanged, update, hcan']
    rw [hupdate]
    refine ⟨hok, ?_⟩
    obtain ⟨_, _, h3⟩ := metricRequests_starts (clearData p) (windowStart (clearData p) now)
      (canUpdate_bound (clearData p) hcan') (clearData p).metrics 0 hok
    rw [h3]
    show List.map _ (List.map _ p.metrics) = _
    rw [List.map_map]
    apply List.map_congr_left
    intro metric _
    simp only [Function.comp, List.map_map]
    apply List.map_congr_left
    intro dataset _
    rfl

theorem optionsChanged_clears_witness :
    (optionsChanged
      { deployment := some ⟨"demo", "frontend"⟩,
        metricsError := some ⟨.num 503, .str "unavailable"⟩,
        metrics :=
          [{ networkMetric with datasets :=
              [{ id := "network/tx", label := some "Sent",
                 data := some [⟨0, 10, .num 1⟩] },
               { id := "network/rx", label := some "Received",
                 data := some [⟨0, 10, .num 1⟩, ⟨10, 20, .num 1⟩] }] }] }
      3600100).2.joined.map
        (fun group => group.requests.map (fun config => (config.metric, config.start))) =
      [[("network/tx", 100), ("network/rx", 100)]] :=
  ((optionsChanged_clears
      { deployment := some ⟨"demo", "frontend"⟩,
        metricsError := some ⟨.num 503, .str "unavailable"⟩,
        metrics :=
          [{ networkMetric with datasets :=
              [{ id := "network/tx", label := some "Sent",
                 data := some [⟨0, 10, .num 1⟩] },
               { id := "network/rx", label := some "Received",
                 data := some [⟨0, 10, .num 1⟩, ⟨10, 20, .num 1⟩] }] }] }
      3600100).2.2.2.2.2.2 (by decide) (Or.inl rfl)).2

/-- C10: `canUpdate()` is truthy exactly when no error is recorded and either a
deployment is bound, or a pod is bound and the compact profile is active or a
container is selected.  When it is falsy, in particular while an error is
recorded, `update()` sends no request, joins nothing and raises nothing, so no
callback runs and the panel state stays as it was. -/
theorem canUpdate_gate (p : Panel) :
    (canUpdate p = true ↔
      p.metricsError = none ∧
        (p.deployment ≠ none ∨
          (p.pod ≠ none ∧ (p.compact = true ∨ p.options.selectedContainer ≠ none)))) ∧
    (p.metricsError ≠ none → canUpdate p = false) ∧
    (canUpdate p = false →
      ∀ (usageValueFilter : String → JNum) (fetch : Config → FetchResult) (now : ℤ),
        update p now = { joined := [], orphaned := [], thrown := none } ∧
        (updateCycle usageValueFilter fetch p now).panel = p ∧
        (updateCycle usageValueFilter fetch p now).requests = [] ∧
        (updateCycle usageValueFilter fetch p now).effects = [] ∧
        (updateCycle usageValueFilter fetch p now).uncaught = []) := by
  refine ⟨?_, ?_, ?_⟩
  · unfold canUpdate
    cases herr : p.metricsError <;> cases hdep : p.deployment <;> cases hpod : p.pod <;>
      cases hc : p.compact <;> cases hsel : p.options.selectedContainer <;> simp
  · intro herr
    unfold canUpdate
    cases h : p.metricsError with
    | none => exact absurd h herr
    | some e => simp
  · intro hcan usageValueFilter fetch now
    have hupdate : update p now = { joined := [], orphaned := [], thrown := none } := by
      simp [update, hcan]
    refine ⟨hupdate, ?_, ?_, ?_, ?_⟩ <;>
      simp [updateCycle, hupdate, settleAll]

theorem canUpdate_gate_witness :
    canUpdate { deployment := some ⟨"demo", "frontend"⟩, metrics := [cpuMetric],
                metricsError := some ⟨.num 503, .str "unavailable"⟩ } = false ∧
    update { deployment := some ⟨"demo", "frontend"⟩, metrics := [cpuMetric],
             metricsError := some ⟨.num 503, .str "unavailable"⟩ } 3600100 =
      { joined := [], orphaned := [], thrown := none } :=
  ⟨(canUpdate_gate
      { deployment := some ⟨"demo", "frontend"⟩, metrics := [cpuMetric],
        metricsError := some ⟨.num 503, .str "unavailable"⟩ }).2.1 (by intro h; cases h),
   ((canUpdate_gate
      { deployment := some ⟨"demo", "frontend"⟩, metrics := [cpuMetric],
        metricsError := some ⟨.num 503, .str "unavailable"⟩ }).2.2 rfl
      (fun _ => .null) (fun _ => .resolved none) 3600100).1⟩

end Metrics

/-! # Theorems: the overview service group -/

namespace ServiceGroup

theorem foldl_eachCandidate_mem {ρ : Type} (pref : ρ → ρ → Option ρ)
    (hsel : ∀ a b, pref a b = some a ∨ pref a b = some b) :
    ∀ (l : List ρ) (a : ρ), ∃ r, l.foldl (eachCandidate pref) (some a) = some r ∧ r ∈ a :: l := by
  intro l
  induction l with
  | nil => intro a; exact ⟨a, rfl, List.mem_singleton_self a⟩
  | cons c rest ih =>
    intro a
    rcases hsel a c with h | h
    · obtain ⟨r, hr, hmem⟩ := ih a
      refine ⟨r, by simpa [List.foldl, eachCandidate, h] using hr, ?_⟩
      rcases List.mem_cons.mp hmem with h1 | h1
      · exact h1 ▸ List.mem_cons_self _ _
      · exact List.mem_cons_of_mem _ (List.mem_cons_of_mem _ h1)
    · obtain ⟨r, hr, hmem⟩ := ih c
      exact ⟨r, by simpa [List.foldl, eachCandidate, h] using hr, List.mem_cons_of_mem _ hmem⟩

theorem foldl_eachCandidate_greatest {ρ : Type} [LinearOrder ρ] (pref : ρ → ρ → Option ρ)
    (hmax : ∀ a b, pref a b = some (max a b)) :
    ∀ (l : List ρ) (a : ρ), ∃ r, l.foldl (eachCandidate pref) (some a) = some r ∧
      r ∈ a :: l ∧ ∀ x ∈ a :: l, x ≤ r := by
  intro l
  induction l with
  | nil =>
    intro a
    exact ⟨a, rfl, List.mem_singleton_self a, fun x hx => le_of_eq (List.mem_singleton.mp hx)⟩
  | cons c rest ih =>
    intro a
    obtain ⟨r, hr, hmem, hge⟩ := ih (max a c)
    refine ⟨r, by simpa [List.foldl, eachCandidate, hmax] using hr, ?_, ?_⟩
    · rcases List.mem_cons.mp hmem with h1 | h1
      · rcases max_choice a c with h2 | h2
        · rw [h1, h2]; exact List.mem_cons_self _ _
        · rw [h1, h2]; exact List.mem_cons_of_mem _ (List.mem_cons_self _ _)
      · exact List.mem_cons_of_mem _ (List.mem_cons_of_mem _ h1)
    · intro x hx
      have htop : max a c ≤ r := hge _ (List.mem_cons_self _ _)
      rcases List.mem_cons.mp hx with h1 | h1
      · rw [h1]; exact le_trans (le_max_left a c) htop
      · rcases List.mem_cons.mp h1 with h2 | h2
        · rw [h2]; exact le_trans (le_max_right a c) htop
        · exact hge x (List.mem_cons_of_mem _ h2)

theorem selectDisplayRoute_greatest {ρ : Type} [LinearOrder ρ] (pref : ρ → ρ → Option ρ)
    (hmax : ∀ a b, pref a b = some (max a b)) (l : List ρ) (hne : l ≠ []) :
    ∃ r, selectDisplayRoute pref (some l) = some r ∧ r ∈ l ∧ ∀ x ∈ l, x ≤ r := by
  cases l with
  | nil => exact absurd rfl hne
  | cons a rest =>
    obtain ⟨r, hr, hmem, hge⟩ := foldl_eachCandidate_greatest pref hmax rest a
    exact ⟨r, by simpa [selectDisplayRoute, List.foldl, eachCandidate] using hr, hmem, hge⟩

/-- C7: with a comparator that returns the maximum of its two arguments under a
total order, the display route selected from a non-empty list of routes is the
greatest route of the list, and every reordering of the list selects the same
route. -/
theorem selectDisplayRoute_order_independent {ρ : Type} [LinearOrder ρ]
    (pref : ρ → ρ → Option ρ) (hmax : ∀ a b, pref a b = some (max a b))
    (l₁ l₂ : List ρ) (hne : l₁ ≠ []) (hperm : l₁.Perm l₂) :
    ∃ r, r ∈ l₁ ∧ (∀ x ∈ l₁, x ≤ r) ∧
      selectDisplayRoute pref (some l₁) = some r ∧
      selectDisplayRoute pref (some l₂) = some r := by
  have hne₂ : l₂ ≠ [] := by
    intro h
    rw [h] at hperm
    exact hne hperm.eq_nil
  obtain ⟨r₁, hr₁, hmem₁, hge₁⟩ := selectDisplayRoute_greatest pref hmax l₁ hne
  obtain ⟨r₂, hr₂, hmem₂, hge₂⟩ := selectDisplayRoute_greatest pref hmax l₂ hne₂
  have h12 : r₁ ≤ r₂ := hge₂ r₁ (hperm.mem_iff.mp hmem₁)
  have h21 : r₂ ≤ r₁ := hge₁ r₂ (hperm.mem_iff.mpr hmem₂)
  have heq : r₂ = r₁ := le_antisymm h21 h12
  exact ⟨r₁, hmem₁, hge₁, hr₁, heq ▸ hr₂⟩

theorem selectDisplayRoute_order_independent_witness :
    selectDisplayRoute preferNewer (some [⟨"r1", -5⟩, ⟨"r2", -1⟩]) = some ⟨"r2", -1⟩ ∧
    selectDisplayRoute preferNewer (some [⟨"r2", -1⟩, ⟨"r1", -5⟩]) = some ⟨"r2", -1⟩ ∧
    ∃ r, r ∈ [(⟨"r1", -5⟩ : Route), ⟨"r2", -1⟩] ∧
      (∀ x ∈ [(⟨"r1", -5⟩ : Route), ⟨"r2", -1⟩], x ≤ r) ∧
      selectDisplayRoute preferNewer (some [⟨"r1", -5⟩, ⟨"r2", -1⟩]) = some r ∧
      selectDisplayRoute preferNewer (some [⟨"r2", -1⟩, ⟨"r1", -5⟩]) = some r :=
  ⟨by decide, by decide,
   selectDisplayRoute_order_independent preferNewer (fun _ _ => rfl)
     [⟨"r1", -5⟩, ⟨"r2", -1⟩] [⟨"r2", -1⟩, ⟨"r1", -5⟩] (by decide) (List.Perm.swap _ _ _)⟩

/-- C8: with a comparator that always returns one of its two arguments, the
routes watch leaves `displayRoute` undefined exactly when the route collection
of the service is missing or empty, and otherwise sets it to one of the
candidate routes. -/
theorem routesChanged_displayRoute {ρ : Type} (pref : ρ → ρ → Option ρ)
    (hsel : ∀ a b, pref a b = some a ∨ pref a b = some b)
    (routes : Option (List ρ)) (s : Scope ρ) :
    ((routesChanged pref routes s).displayRoute = none ↔ routes = none ∨ routes = some []) ∧
    ((routes ≠ none ∧ routes ≠ some []) →
      ∃ r l, (routesChanged pref routes s).displayRoute = some r ∧ routes = some l ∧ r ∈ l) := by
  have hcons : ∀ (a : ρ) (rest : List ρ), ∃ r,
      (routesChanged pref (some (a :: rest)) s).displayRoute = some r ∧ r ∈ a :: rest := by
    intro a rest
    obtain ⟨r, hr, hmem⟩ := foldl_eachCandidate_mem pref hsel rest a
    exact ⟨r, by simpa [routesChanged, selectDisplayRoute, List.foldl, eachCandidate] using hr,
      hmem⟩
  match routes with
  | none =>
    exact ⟨⟨fun _ => Or.inl rfl, fun _ => rfl⟩, fun h => absurd rfl h.1⟩
  | some [] =>
    exact ⟨⟨fun _ => Or.inr rfl, fun _ => rfl⟩, fun h => absurd rfl h.2⟩
  | some (a :: rest) =>
    obtain ⟨r, hr, hmem⟩ := hcons a rest
    refine ⟨⟨?_, ?_⟩, fun _ => ⟨r, a :: rest, hr, rfl, hmem⟩⟩
    · intro h
      rw [hr] at h
      cases h
    · intro h
      rcases h with h | h <;> simp at h

theorem routesChanged_displayRoute_witness :
    (routesChanged preferNewer (some [⟨"r1", -5⟩, ⟨"r2", -1⟩]) {}).displayRoute =
      some ⟨"r2", -1⟩ ∧
    (routesChanged preferNewer (some []) {}).displayRoute = none ∧
    (routesChanged preferNewer none {}).displayRoute = none ∧
    ∃ r l, (routesChanged preferNewer (some [⟨"r1", -5⟩, ⟨"r2", -1⟩]) {}).displayRoute = some r ∧
      some [(⟨"r1", -5⟩ : Route), ⟨"r2", -1⟩] = some l ∧ r ∈ l :=
  ⟨by decide, by decide, by decide,
   (routesChanged_displayRoute preferNewer
      (fun a b => (max_choice a b).elim (fun h => Or.inl (congrArg some h))
        (fun h => Or.inr (congrArg some h)))
      (some [⟨"r1", -5⟩, ⟨"r2", -1⟩]) {}).2 ⟨by decide, by decide⟩⟩

/-! ## `toggleCollapse` -/

/-- C11: for every collapse state, `toggleCollapse` called with an event whose
target is an anchor element (`tagName` equal to `'A'`) leaves the scope, and so
the collapse state, unchanged; called without an event, with an event without a
target, or with an event whose target is not an anchor, it flips the collapse
state and changes nothing else. -/
theorem toggleCollapse_flips {ρ : Type} (s : Scope ρ) (e : Option Event) :
    ((∃ event target, e = some event ∧ event.target = some target ∧ target.tagName = "A") →
      toggleCollapse e s = s) ∧
    ((∀ event target, e = some event → event.target = some target → target.tagName ≠ "A") →
      (toggleCollapse e s).isCollapsed = !s.isCollapsed ∧
      (toggleCollapse e s).displayRoute = s.displayRoute) := by
  constructor
  · rintro ⟨event, target, he, ht, ha⟩
    simp [toggleCollapse, he, ht, ha]
  · intro hnot
    have hflip : ({ s with collapse := some (!(s.collapse.getD false)) } : Scope ρ).isCollapsed =
        !s.isCollapsed := by
      cases hc : s.collapse <;> simp [Scope.isCollapsed, hc]
    unfold toggleCollapse
    cases hb : e.bind (·.target) with
    | none => exact ⟨hflip, rfl⟩
    | some target =>
      have hne : target.tagName ≠ "A" := by
        cases e with
        | none => simp at hb
        | some event => exact hnot event target rfl (by simpa using hb)
      show (if target.tagName = "A" then s
          else { s with collapse := some (!(s.collapse.getD false)) }).isCollapsed =
            !s.isCollapsed ∧
        (if target.tagName = "A" then s
          else { s with collapse := some (!(s.collapse.getD false)) }).displayRoute =
            s.displayRoute
      rw [if_neg hne]
      exact ⟨hflip, rfl⟩

theorem toggleCollapse_flips_witness :
    toggleCollapse (some ⟨some ⟨"A"⟩⟩) ({ collapse := some true } : Scope Route) =
      { collapse := some true } ∧
    (toggleCollapse (some ⟨some ⟨"DIV"⟩⟩) ({ collapse := some true } : Scope Route)).isCollapsed =
      false ∧
    (toggleCollapse none ({} : Scope Route)).isCollapsed = true :=
  ⟨(toggleCollapse_flips ({ collapse := some true } : Scope Route) (some ⟨some ⟨"A"⟩⟩)).1
      ⟨⟨some ⟨"A"⟩⟩, ⟨"A"⟩, rfl, rfl, rfl⟩,
   ((toggleCollapse_flips ({ collapse := some true } : Scope Route) (some ⟨some ⟨"DIV"⟩⟩)).2
      (by
        intro event target he ht
        cases he
        cases ht
        decide)).1,
   ((toggleCollapse_flips ({} : Scope Route) none).2
      (by
        intro event target he
        cases he)).1⟩

end ServiceGroup
